import Mathlib

/-!
Shallow embedding of `junit2htmlreport/matrix.py`: the report matrix that
aggregates several parsed junit reports, its ingestion procedure
(`ReportMatrix.add_report`), the outcome combinator (`combined_result`),
the natural sort used for property axes (`natural_sort_key` /
`property_order`), and the cell rendering of the HTML matrix summary
(`HtmlReportMatrix.summary`).

Python dicts are modelled as insertion-ordered association lists with
string keys (`Dict`): assignment to an existing key updates the entry in
place, assignment to a fresh key appends, exactly like CPython dicts.
-/

set_option autoImplicit false

namespace JUnitMatrix

/-- A Python dict with string keys, as an insertion-ordered association list. -/
abbrev Dict (β : Type) : Type := List (String × β)

namespace PyDict

/-- `d[k]` lookup (`dict.get(k)`): first entry whose key is `k`. -/
def get? {β : Type} : Dict β → String → Option β
  | [], _ => none
  | (a, b) :: t, k => if a = k then some b else get? t k

/-- `k in d`: dict key membership. -/
def hasKey {β : Type} (d : Dict β) (k : String) : Bool :=
  (get? d k).isSome

/-- `d[k] = v`: update in place when the key exists, else append. -/
def set {β : Type} : Dict β → String → β → Dict β
  | [], k, v => [(k, v)]
  | (a, b) :: t, k, v => if a = k then (a, v) :: t else (a, b) :: set t k v

/-- `list(d.keys())` in insertion order. -/
def keys {β : Type} (d : Dict β) : List String :=
  d.map (·.1)

end PyDict

/-- A `<property>` element of a test case, as handed over by the parser;
only its `value` is inspected by the matrix. -/
structure CaseProperty where
  value : String
  deriving DecidableEq, Repr

/-- A parsed test case (external parser output, see spec §6): base name,
elementary outcome, anchor token and declared properties. -/
structure TestCase where
  basename : String
  outcome : String
  anchor : String
  properties : List CaseProperty
  deriving DecidableEq, Repr

/-- A class subtree: the ordered test cases of one class in one report. -/
structure TestClass where
  cases : List TestCase
  deriving DecidableEq, Repr

/-- One suite: mapping class name → class subtree (`suite.classes`). -/
structure Suite where
  classes : Dict TestClass
  deriving DecidableEq, Repr

/-- One parsed report (`parser.Junit`): its ordered suites. -/
structure Report where
  suites : List Suite
  deriving DecidableEq, Repr

/-- Modelled from the spec: the parser module (`junit2htmlreport.parser`,
not under `src/`) exports the elementary outcome constants `PASSED`,
`FAILED`, `SKIPPED` and the matrix-internal sentinel `ABSENT` (spec §3,
§6).  Their concrete lowercase word values follow the spec's use of
`outcome.title()` for display labels. -/
def PASSED : String := "passed"

/-- Modelled from the spec: parser constant, see `PASSED`. -/
def FAILED : String := "failed"

/-- Modelled from the spec: parser constant, see `PASSED`. -/
def SKIPPED : String := "skipped"

/-- Modelled from the spec: matrix-internal sentinel, see `PASSED`. -/
def ABSENT : String := "absent"

/-- `UNTESTED = "untested"` (matrix.py line 11). -/
def UNTESTED : String := "untested"

/-- `PARTIAL_PASS = "partial pass"` (line 12). -/
def PARTIAL_PASS : String := "partial pass"

/-- `PARTIAL_FAIL = "partial failure"` (line 13). -/
def PARTIAL_FAIL : String := "partial failure"

/-- `TOTAL_FAIL = "total failure"` (line 14). -/
def TOTAL_FAIL : String := "total failure"

/-- Python's `str.title()` restricted to ASCII: the first letter of every
word is uppercased, every other letter lowercased. -/
def pyTitle (s : String) : String :=
  (s.data.foldl
    (fun (acc : String × Bool) c =>
      (acc.1.push (if c.isAlpha then (if acc.2 then c.toLower else c.toUpper) else c),
       c.isAlpha))
    ("", false)).1

/-- Python's `str.lower()` restricted to ASCII. -/
def pyLower (s : String) : String :=
  String.mk (s.data.map Char.toLower)

/-- Python's `str.isdigit()` (ASCII): nonempty and all digits. -/
def pyIsDigit (s : String) : Bool :=
  s.length != 0 && s.data.all Char.isDigit

/-- Python's `str.strip()`: drop leading and trailing whitespace. -/
def pyStrip (s : String) : String :=
  String.mk (((s.data.dropWhile Char.isWhitespace).reverse.dropWhile Char.isWhitespace).reverse)

/-- `int(text)` for an all-digit string. -/
def parseNat (s : String) : Nat :=
  s.data.foldl (fun n c => n * 10 + (c.toNat - 48)) 0

/-- `re.compile('([0-9]+)').split(s)`: alternating runs of non-digit text
(possibly empty, at even positions) and captured digit runs (at odd
positions).  The fuel parameter only drives termination; with fuel
`> length` it is never exhausted. -/
def splitDigitRuns : Nat → List Char → List String
  | 0, cs => [String.mk cs]
  | fuel + 1, cs =>
    let txt := cs.takeWhile (fun c => !c.isDigit)
    let rest := cs.dropWhile (fun c => !c.isDigit)
    match rest with
    | [] => [String.mk txt]
    | _ =>
      let ds := rest.takeWhile Char.isDigit
      let rest2 := rest.dropWhile Char.isDigit
      String.mk txt :: String.mk ds :: splitDigitRuns fuel rest2

/-- `natural_sort_key` (lines 17-19): each digit run becomes its integer
value, each text run is lowercased. -/
def natural_sort_key (s : String) : List (Sum Nat String) :=
  (splitDigitRuns (s.length + 1) s.data).map
    (fun t => if pyIsDigit t then Sum.inl (parseNat t) else Sum.inr (pyLower t))

/-- Lexicographic comparison of char lists (Python string `<`,
by code point). -/
def charListLt : List Char → List Char → Bool
  | [], [] => false
  | [], _ :: _ => true
  | _ :: _, [] => false
  | a :: as, b :: bs =>
    if a < b then true else if b < a then false else charListLt as bs

/-- Python string comparison `a < b`. -/
def strLt (a b : String) : Bool :=
  charListLt a.data b.data

/-- Comparison of one sort-key element.  Keys produced by
`natural_sort_key` carry strings at even and numbers at odd positions, so
two keys are only ever compared element-wise at equal types; the mixed
cases (on which Python would raise `TypeError`) are unreachable for such
keys and fixed arbitrarily. -/
def elem_lt : Sum Nat String → Sum Nat String → Bool
  | Sum.inl a, Sum.inl b => decide (a < b)
  | Sum.inr a, Sum.inr b => strLt a b
  | Sum.inl _, Sum.inr _ => true
  | Sum.inr _, Sum.inl _ => false

/-- Python's lexicographic comparison of two sort keys (lists). -/
def key_lt : List (Sum Nat String) → List (Sum Nat String) → Bool
  | [], [] => false
  | [], _ :: _ => true
  | _ :: _, [] => false
  | a :: as, b :: bs =>
    if elem_lt a b then true else if elem_lt b a then false else key_lt as bs

/-- Stable insertion of `x` into a sorted list: `x` goes before the first
element that is not strictly below it. -/
def insertSorted {α : Type} (lt : α → α → Bool) (x : α) : List α → List α
  | [] => [x]
  | y :: ys => if lt y x then y :: insertSorted lt x ys else x :: y :: ys

/-- Stable insertion sort; models Python's stable `sorted`. -/
def insertionSort {α : Type} (lt : α → α → Bool) : List α → List α
  | [] => []
  | x :: xs => insertSorted lt x (insertionSort lt xs)

/-- The aggregate matrix state (`ReportMatrix.__init__` fields). -/
structure ReportMatrix where
  reports : Dict Report
  cases : Dict (Dict (Dict TestCase))
  classes : Dict (Dict TestClass)
  casenames : Dict (List String)
  result_stats : Dict Nat
  properties : Dict (List TestCase)
  deriving DecidableEq, Repr

namespace ReportMatrix

/-- `ReportMatrix.__init__(prop_prefix, prop_count)` (lines 27-39):
starts empty; when both arguments are truthy (`prop_prefix` neither
`None` nor empty, `prop_count` nonzero) the property axes
`prop_prefix + str(i)` for `i = 1 .. prop_count` are pre-registered. -/
def init ( prop_prefix : Option String) (prop_count : Nat) : ReportMatrix :=
  { reports := [], cases := [], classes := [], casenames := [],
    result_stats := [],
    properties :=
      match prop_prefix with
      | none => []
      | some pfx =>
        if pfx ≠ "" ∧ prop_count ≠ 0 then
          (List.range' 1 prop_count).map (fun i => (pfx ++ toString i, ([] : List TestCase)))
        else [] }

/-- `property_order` (lines 44-45): property axis names sorted by
`natural_sort_key`. -/
def property_order (m : ReportMatrix) : List String :=
  insertionSort (fun a b => key_lt (natural_sort_key a) (natural_sort_key b))
    (PyDict.keys m.properties)

/-- `report_order` (lines 41-42). -/
def report_order (m : ReportMatrix) : List String :=
  insertionSort strLt (PyDict.keys m.reports)

end ReportMatrix

/-- `ReportMatrix.short_outcome` (lines 47-63). -/
def short_outcome (outcome : String) : String :=
  if outcome = PASSED then "/"
  else if outcome = SKIPPED then "s"
  else if outcome = FAILED then "f"
  else if outcome = TOTAL_FAIL then "F"
  else if outcome = PARTIAL_PASS then "%"
  else if outcome = PARTIAL_FAIL then "X"
  else if outcome = UNTESTED then "U"
  else "?"

/-- `HtmlReportMatrix.short_outcome` (lines 172-175): `PASSED` renders as
`"ok"`, everything else falls back to the base implementation. -/
def html_short_outcome (outcome : String) : String :=
  if outcome = PASSED then "ok" else short_outcome outcome

/-- `ReportMatrix.combined_result` (lines 118-135), parametric in
`self.short_outcome` to model the dynamic dispatch between the base class
and `HtmlReportMatrix`. -/
def combined_result_with (so : String → String) (results : List String) : String × String :=
  if PASSED ∈ results then
    if FAILED ∈ results then (so PARTIAL_FAIL, pyTitle PARTIAL_FAIL)
    else if SKIPPED ∈ results then (so PARTIAL_PASS, pyTitle PARTIAL_PASS)
    else (so PASSED, pyTitle PASSED)
  else if FAILED ∈ results then (so TOTAL_FAIL, pyTitle TOTAL_FAIL)
  else if SKIPPED ∈ results then (so UNTESTED, pyTitle UNTESTED)
  else (" ", "")

/-- `combined_result` as invoked on a plain `ReportMatrix`. -/
def combined_result (results : List String) : String × String :=
  combined_result_with short_outcome results

/-- `combined_result` as invoked on an `HtmlReportMatrix`. -/
def html_combined_result (results : List String) : String × String :=
  combined_result_with html_short_outcome results

/-- `os.path.basename` on POSIX paths: the suffix after the last `/`. -/
def os_path_basename (path : String) : String :=
  String.mk ((path.data.reverse.takeWhile (fun c => c ≠ '/')).reverse)

/-- Two-level dict lookup `d[c][ax]`, with a missing outer key reading as
an empty inner dict (all call sites only read keys that exist). -/
def get2 {β : Type} (d : Dict (Dict β)) (c ax : String) : Option β :=
  PyDict.get? ((PyDict.get? d c).getD []) ax

/-- Three-level dict lookup `d[c][cn][ax]`. -/
def get3 (d : Dict (Dict (Dict TestCase))) (c cn ax : String) : Option TestCase :=
  PyDict.get? ((PyDict.get? ((PyDict.get? d c).getD []) cn).getD []) ax

/-- Three-level dict assignment `d[c][cn][ax] = tc`.  Python raises
`KeyError` when `c` or `cn` is missing; at every call site below the two
outer keys were created just before, so the `getD []` defaults are never
exercised. -/
def set3 (d : Dict (Dict (Dict TestCase))) (c cn ax : String) (tc : TestCase) :
    Dict (Dict (Dict TestCase)) :=
  let d2 := (PyDict.get? d c).getD []
  let d3 := (PyDict.get? d2 cn).getD []
  PyDict.set d c (PyDict.set d2 cn (PyDict.set d3 ax tc))

/-- `self.result_stats[outcome] = 1 + self.result_stats.get(outcome, 0)`
(lines 96-97). -/
def stats_bump (d : Dict Nat) (k : String) : Dict Nat :=
  PyDict.set d k (1 + (PyDict.get? d k).getD 0)

/-- Folding `stats_bump` over a list of outcomes. -/
def bump_all (d : Dict Nat) (os : List String) : Dict Nat :=
  os.foldl stats_bump d

/-- The property loop body (lines 100-109): an unrecognized property
value is skipped with a warning; a recognized one appends the case to the
axis's list and records the case under that axis key. -/
def add_property (testclass basename : String) (testcase : TestCase)
    (m : ReportMatrix) (prop : CaseProperty) : ReportMatrix :=
  if (PyDict.get? m.properties prop.value).isNone then m
  else
    { m with
      properties := (PyDict.set m.properties prop.value
        (((PyDict.get? m.properties prop.value).getD []) ++ [testcase])),
      cases := set3 m.cases testclass basename prop.value testcase }

/-- The per-test-case body of `add_report` (lines 83-109).  The four
mutations before the property loop touch pairwise disjoint fields, so
they are threaded as field values: the buggy `basename not in
self.casenames` check (line 85, against the dict of class names), the
creation of `self.cases[testclass]` and `...[basename]` when missing,
the `filename`-axis write, and the stats bump. -/
def process_case (testclass filename : String) (m : ReportMatrix)
    (testcase : TestCase) : ReportMatrix :=
  let basename := pyStrip testcase.basename
  let casenames1 :=
    if ¬ PyDict.hasKey m.casenames basename then
      PyDict.set m.casenames testclass
        (((PyDict.get? m.casenames testclass).getD []) ++ [basename])
    else m.casenames
  let cases1 :=
    if ¬ PyDict.hasKey m.cases testclass then PyDict.set m.cases testclass []
    else m.cases
  let cases2 :=
    if ¬ PyDict.hasKey ((PyDict.get? cases1 testclass).getD []) basename then
      PyDict.set cases1 testclass
        (PyDict.set ((PyDict.get? cases1 testclass).getD []) basename [])
    else cases1
  let cases3 := set3 cases2 testclass basename filename testcase
  let stats1 := stats_bump m.result_stats testcase.outcome
  testcase.properties.foldl (add_property testclass basename testcase)
    { m with casenames := casenames1, cases := cases3, result_stats := stats1 }

/-- The per-class body of `add_report` (lines 76-109): create the class
and casename entries when new, record the subtree under the filename
axis, then process the class's cases. -/
def process_class (filename : String) (m : ReportMatrix)
    (entry : String × TestClass) : ReportMatrix :=
  let testclass := entry.1
  let classes1 :=
    if ¬ PyDict.hasKey m.classes testclass then PyDict.set m.classes testclass []
    else m.classes
  let casenames1 :=
    if ¬ PyDict.hasKey m.casenames testclass then PyDict.set m.casenames testclass []
    else m.casenames
  let classes2 := PyDict.set classes1 testclass
    (PyDict.set ((PyDict.get? classes1 testclass).getD []) filename entry.2)
  entry.2.cases.foldl (process_case testclass filename)
    { m with classes := classes2, casenames := casenames1 }

/-- The per-suite body of `add_report` (line 75). -/
def process_suite (filename : String) (m : ReportMatrix) (suite : Suite) : ReportMatrix :=
  suite.classes.foldl (process_class filename) m

/-- `ReportMatrix.add_report` (lines 65-109).  The external parse
`parser.Junit(filename)` is passed in as the already-parsed `parsed`
value; the report is registered under the path's basename and its suites
are folded into the matrix. -/
def add_report (m : ReportMatrix) (parsed : Report) (path : String) : ReportMatrix :=
  let filename := os_path_basename path
  let m := { m with reports := PyDict.set m.reports filename parsed }
  parsed.suites.foldl (process_suite filename) m

/-- Ingesting a list of (parsed report, path) pairs in order. -/
def ingest_all (m : ReportMatrix) (rs : List (Report × String)) : ReportMatrix :=
  rs.foldl (fun m e => add_report m e.1 e.2) m

/-- All (class name, class subtree) pairs of a report, in traversal order. -/
def report_class_pairs (r : Report) : List (String × TestClass) :=
  r.suites.foldr (fun s acc => s.classes ++ acc) []

/-- All (class name, test case) pairs of a pair list, in traversal order. -/
def pairs_triples (ps : List (String × TestClass)) : List (String × TestCase) :=
  ps.foldr (fun e acc => e.2.cases.map (fun t => (e.1, t)) ++ acc) []

/-- All (class name, test case) pairs of a suite list, in traversal order. -/
def suites_triples (ss : List Suite) : List (String × TestCase) :=
  ss.foldr (fun s acc => pairs_triples s.classes ++ acc) []

/-- All (class name, test case) pairs of a report, in traversal order. -/
def report_triples (r : Report) : List (String × TestCase) :=
  suites_triples r.suites

/-- The outcomes of the cases of a (class name, subtree) pair list, in
traversal order. -/
def pairs_outcomes (ps : List (String × TestClass)) : List String :=
  ps.foldr (fun e acc => e.2.cases.map (fun t => t.outcome) ++ acc) []

/-- The outcomes of the cases of a suite list, in traversal order. -/
def suites_outcomes (ss : List Suite) : List String :=
  ss.foldr (fun s acc => pairs_outcomes s.classes ++ acc) []

/-- The outcome of every case occurrence of a report, in traversal order. -/
def report_outcomes (r : Report) : List String :=
  suites_outcomes r.suites

/-- How many case occurrences of `r` carry outcome `o`. -/
def count_outcome (r : Report) (o : String) : Nat :=
  (report_outcomes r).count o

/-- The current value of a stats counter (missing key counts as 0). -/
def statsGet (d : Dict Nat) (o : String) : Nat :=
  ((PyDict.get? d o).getD 0)

/-- The total of all stats counters. -/
def stats_total (d : Dict Nat) : Nat :=
  (d.map (·.2)).sum

/-- The last element of a list satisfying `p`, if any. -/
def lastMatch {α : Type} (p : α → Bool) : List α → Option α
  | [] => none
  | x :: xs =>
    match lastMatch p xs with
    | some y => some y
    | none => if p x then some x else none

/-- The per-axis cell list built by `HtmlReportMatrix.summary`
(lines 198-213): one entry per property axis, `ABSENT` when the case has
no data on that axis, the stored case's outcome otherwise. -/
def html_case_results (m : ReportMatrix) (classname casename : String) : List String :=
  (m.property_order).map (fun axis =>
    match get3 m.cases classname casename axis with
    | none => ABSENT
    | some testcase => testcase.outcome)

/-- The outcomes on only the axes where data exists for the case. -/
def data_results (m : ReportMatrix) (classname casename : String) : List String :=
  (m.property_order).filterMap (fun axis =>
    (get3 m.cases classname casename axis).map (fun testcase => testcase.outcome))

/-- One `<td>` cell of the HTML matrix (`HtmlReportMatrix.summary`,
lines 202-228).  `none` models the `IndexError` that
`list(self.reports.keys())[0]` raises when no report was ingested; the
absent branch interpolates Python's `None` as the string `"None"`. -/
def render_cell (m : ReportMatrix) (classname casename axis : String) : Option String :=
  let found := get3 m.cases classname casename axis
  let cellclass := match found with | none => ABSENT | some testcase => testcase.outcome
  let anchor := match found with | none => "None" | some testcase => testcase.anchor
  let cell0 := match found with
    | none => "&nbsp;"
    | some testcase => html_short_outcome testcase.outcome
  match PyDict.keys m.reports with
  | [] => none
  | report_name :: _ =>
    let cell1 := "<a class='tooltip-parent testcase-link' href='" ++ report_name ++
      ".html#" ++ anchor ++ "'>" ++ cell0 ++
      "<div class='tooltip'>(" ++ pyTitle cellclass ++ ") " ++ axis ++ "</div></a>"
    let cell2 := if cellclass = ABSENT then "" else cell1
    some ("<td class='testcase-cell " ++ cellclass ++ "'>" ++ cell2 ++ "</td>")

/-! ### Concrete fixtures used by witnesses and counterexamples -/

/-- A passing test case named `case1`. -/
def fixCasePass : TestCase :=
  { basename := "case1", outcome := PASSED, anchor := "a1", properties := [] }

/-- A failing test case named `case2`. -/
def fixCaseFail : TestCase :=
  { basename := "case2", outcome := FAILED, anchor := "a2", properties := [] }

/-- A one-suite report: class `cls` with the passing case. -/
def fixRepA : Report :=
  { suites := [{ classes := [("cls", { cases := [fixCasePass] })] }] }

/-- A one-suite report: class `cls` with the failing case. -/
def fixRepB : Report :=
  { suites := [{ classes := [("cls", { cases := [fixCaseFail] })] }] }

/-- A matrix constructed with no property axes. -/
def fixEmpty : ReportMatrix := ReportMatrix.init none 0

/-- The same report ingested under two distinct basenames. -/
def fixTwice : ReportMatrix :=
  add_report (add_report fixEmpty fixRepA "a.xml") fixRepA "b.xml"

/-- A matrix whose declared property axes are REQ1, REQ2, REQ10. -/
def fixReq : ReportMatrix :=
  { fixEmpty with properties := [("REQ1", []), ("REQ2", []), ("REQ10", [])] }

/-- A matrix with two ingested reports and one case recorded under the
property axis `REQ1` (its data coming from the second report). -/
def fixTwoReports : ReportMatrix :=
  { fixEmpty with
    reports := [("a.xml", fixRepA), ("b.xml", fixRepB)],
    cases := [("cls", [("case1", [("REQ1", fixCaseFail)])])],
    properties := [("REQ1", [fixCaseFail])] }

/-! ### Association-list (Python dict) lemmas -/

theorem PyDict.get?_set {β : Type} (d : Dict β) (k k' : String) (v : β) :
    PyDict.get? (PyDict.set d k v) k' = if k = k' then some v else PyDict.get? d k' := by
  induction d with
  | nil =>
    by_cases h : k = k' <;> simp [PyDict.set, PyDict.get?, h]
  | cons e t ih =>
    obtain ⟨a, b⟩ := e
    by_cases hak : a = k
    · subst hak
      by_cases hk' : a = k' <;> simp [PyDict.set, PyDict.get?, hk']
    · by_cases hk' : a = k'
      · subst hk'
        have hkk' : ¬ k = a := fun h => hak h.symm
        simp [PyDict.set, PyDict.get?, hak, hkk']
      · simp [PyDict.set, PyDict.get?, hak, hk', ih]

theorem PyDict.get?_eq_none_of_hasKey_false {β : Type} {d : Dict β} {k : String}
    (h : PyDict.hasKey d k = false) : PyDict.get? d k = none := by
  unfold PyDict.hasKey at h
  cases hg : PyDict.get? d k with
  | none => rfl
  | some v => rw [hg] at h; simp at h

theorem PyDict.hasKey_iff_mem_keys {β : Type} (d : Dict β) (k : String) :
    PyDict.hasKey d k = true ↔ k ∈ PyDict.keys d := by
  induction d with
  | nil => simp [PyDict.hasKey, PyDict.get?, PyDict.keys]
  | cons e t ih =>
    obtain ⟨a, b⟩ := e
    by_cases hak : a = k
    · subst hak; simp [PyDict.hasKey, PyDict.get?, PyDict.keys]
    · simp only [PyDict.hasKey, PyDict.get?, PyDict.keys, List.map_cons, List.mem_cons,
        if_neg hak] at *
      rw [ih]
      constructor
      · exact fun h => Or.inr h
      · rintro (h | h)
        · exact absurd h.symm hak
        · exact h

theorem PyDict.keys_set {β : Type} (d : Dict β) (k : String) (v : β) :
    PyDict.keys (PyDict.set d k v) =
      if PyDict.hasKey d k then PyDict.keys d else PyDict.keys d ++ [k] := by
  induction d with
  | nil => simp [PyDict.set, PyDict.keys, PyDict.hasKey, PyDict.get?]
  | cons e t ih =>
    obtain ⟨a, b⟩ := e
    by_cases hak : a = k
    · subst hak; simp [PyDict.set, PyDict.keys, PyDict.hasKey, PyDict.get?]
    · have hset : PyDict.set ((a, b) :: t) k v = (a, b) :: PyDict.set t k v := by
        simp [PyDict.set, hak]
      have hhk : PyDict.hasKey ((a, b) :: t) k = PyDict.hasKey t k := by
        simp [PyDict.hasKey, PyDict.get?, hak]
      rw [hset, hhk]
      by_cases hk : PyDict.hasKey t k <;>
        simp only [PyDict.keys, List.map_cons, hk, if_true, if_false, Bool.false_eq_true,
          List.cons_append] <;>
        rw [show PyDict.keys (PyDict.set t k v) = List.map (fun x => x.1) (PyDict.set t k v) from rfl] at * <;>
        rw [ih] <;> simp [hk, PyDict.keys]

theorem PyDict.keys_set_existing {β : Type} {d : Dict β} {k : String} {v' : β}
    (h : PyDict.get? d k = some v') (v : β) :
    PyDict.keys (PyDict.set d k v) = PyDict.keys d := by
  rw [PyDict.keys_set]
  have : PyDict.hasKey d k = true := by unfold PyDict.hasKey; rw [h]; rfl
  simp [this]

theorem PyDict.hasKey_eq_of_keys_eq {β γ : Type} {d : Dict β} {d' : Dict γ}
    (h : PyDict.keys d = PyDict.keys d') (k : String) :
    PyDict.hasKey d k = PyDict.hasKey d' k := by
  by_cases hk : PyDict.hasKey d k
  · have := (PyDict.hasKey_iff_mem_keys d k).mp hk
    rw [h] at this
    rw [hk, ((PyDict.hasKey_iff_mem_keys d' k).mpr this)]
  · simp only [Bool.not_eq_true] at hk
    rw [hk]
    by_cases hk' : PyDict.hasKey d' k
    · have := (PyDict.hasKey_iff_mem_keys d' k).mp hk'
      rw [← h] at this
      have := (PyDict.hasKey_iff_mem_keys d k).mpr this
      rw [this] at hk; cases hk
    · simp only [Bool.not_eq_true] at hk'
      rw [hk']

/-! ### Result-stats characterization -/

theorem get?_stats_bump (d : Dict Nat) (k o : String) :
    PyDict.get? (stats_bump d k) o =
      if k = o then some ((PyDict.get? d o).getD 0 + 1) else PyDict.get? d o := by
  unfold stats_bump
  rw [PyDict.get?_set]
  by_cases h : k = o
  · subst h; simp [Nat.add_comm]
  · simp [h]

theorem bump_all_append (d : Dict Nat) (xs ys : List String) :
    bump_all d (xs ++ ys) = bump_all (bump_all d xs) ys := by
  simp [bump_all, List.foldl_append]

theorem get?_bump_all (os : List String) (d : Dict Nat) (o : String) :
    PyDict.get? (bump_all d os) o =
      if os.count o = 0 then PyDict.get? d o
      else some ((PyDict.get? d o).getD 0 + os.count o) := by
  induction os generalizing d with
  | nil => simp [bump_all]
  | cons x os ih =>
    have hstep : bump_all d (x :: os) = bump_all (stats_bump d x) os := rfl
    rw [hstep, ih, List.count_cons]
    by_cases hx : x = o
    · subst hx
      rw [get?_stats_bump]
      simp only [if_pos rfl, beq_self_eq_true, if_true, Option.getD_some]
      by_cases hc : os.count x = 0
      · simp [hc]
      · simp [hc]
        omega
    · have hbeq : ((x == o) : Bool) = false := by
        simp [hx]
      rw [get?_stats_bump, if_neg hx]
      simp [hbeq]

theorem statsGet_bump_all (os : List String) (d : Dict Nat) (o : String) :
    statsGet (bump_all d os) o = statsGet d o + os.count o := by
  unfold statsGet
  rw [get?_bump_all]
  by_cases hc : os.count o = 0 <;> simp [hc]

theorem stats_total_bump (d : Dict Nat) (k : String) :
    stats_total (stats_bump d k) = stats_total d + 1 := by
  induction d with
  | nil => simp [stats_total, stats_bump, PyDict.set, PyDict.get?]
  | cons e t ih =>
    obtain ⟨a, b⟩ := e
    by_cases hak : a = k
    · subst hak
      simp [stats_total, stats_bump, PyDict.set, PyDict.get?]
      omega
    · have h1 : stats_bump ((a, b) :: t) k = (a, b) :: stats_bump t k := by
        simp [stats_bump, PyDict.set, PyDict.get?, hak]
      rw [h1]
      simp only [stats_total, List.map_cons, List.sum_cons] at *
      omega

theorem stats_total_bump_all (os : List String) (d : Dict Nat) :
    stats_total (bump_all d os) = stats_total d + os.length := by
  induction os generalizing d with
  | nil => simp [bump_all]
  | cons x os ih =>
    have hstep : bump_all d (x :: os) = bump_all (stats_bump d x) os := rfl
    rw [hstep, ih, stats_total_bump]
    simp
    omega

theorem add_property_result_stats (tcl bn : String) (tc : TestCase)
    (m : ReportMatrix) (p : CaseProperty) :
    (add_property tcl bn tc m p).result_stats = m.result_stats := by
  unfold add_property
  split <;> rfl

theorem foldl_add_property_result_stats (tcl bn : String) (tc : TestCase)
    (ps : List CaseProperty) (m : ReportMatrix) :
    (ps.foldl (add_property tcl bn tc) m).result_stats = m.result_stats := by
  induction ps generalizing m with
  | nil => rfl
  | cons p ps ih =>
    simp only [List.foldl_cons]
    rw [ih, add_property_result_stats]

theorem process_case_result_stats (tcl fn : String) (m : ReportMatrix) (tc : TestCase) :
    (process_case tcl fn m tc).result_stats = stats_bump m.result_stats tc.outcome := by
  simp only [process_case]
  rw [foldl_add_property_result_stats]

theorem foldl_process_case_result_stats (tcl fn : String) (cs : List TestCase)
    (m : ReportMatrix) :
    (cs.foldl (process_case tcl fn) m).result_stats =
      bump_all m.result_stats (cs.map (fun t => t.outcome)) := by
  induction cs generalizing m with
  | nil => rfl
  | cons tc cs ih =>
    simp only [List.foldl_cons, List.map_cons]
    rw [ih, process_case_result_stats]
    rfl

theorem process_class_result_stats (fn : String) (m : ReportMatrix)
    (e : String × TestClass) :
    (process_class fn m e).result_stats =
      bump_all m.result_stats (e.2.cases.map (fun t => t.outcome)) := by
  simp only [process_class]
  rw [foldl_process_case_result_stats]

theorem foldl_process_class_result_stats (fn : String)
    (ps : List (String × TestClass)) (m : ReportMatrix) :
    (ps.foldl (process_class fn) m).result_stats =
      bump_all m.result_stats (pairs_outcomes ps) := by
  induction ps generalizing m with
  | nil => rfl
  | cons e ps ih =>
    simp only [List.foldl_cons]
    rw [ih, process_class_result_stats]
    have : pairs_outcomes (e :: ps) =
        e.2.cases.map (fun t => t.outcome) ++ pairs_outcomes ps := rfl
    rw [this, bump_all_append]

theorem foldl_process_suite_result_stats (fn : String) (ss : List Suite)
    (m : ReportMatrix) :
    (ss.foldl (process_suite fn) m).result_stats =
      bump_all m.result_stats (suites_outcomes ss) := by
  induction ss generalizing m with
  | nil => rfl
  | cons s ss ih =>
    simp only [List.foldl_cons]
    rw [ih]
    unfold process_suite
    rw [foldl_process_class_result_stats]
    have : suites_outcomes (s :: ss) = pairs_outcomes s.classes ++ suites_outcomes ss := rfl
    rw [this, bump_all_append]

theorem add_report_result_stats (m : ReportMatrix) (r : Report) (path : String) :
    (add_report m r path).result_stats = bump_all m.result_stats (report_outcomes r) := by
  unfold add_report
  rw [foldl_process_suite_result_stats]
  rfl

theorem ingest_all_result_stats (rs : List (Report × String)) (m : ReportMatrix) :
    (ingest_all m rs).result_stats =
      bump_all m.result_stats (rs.foldr (fun e acc => report_outcomes e.1 ++ acc) []) := by
  induction rs generalizing m with
  | nil => rfl
  | cons e rs ih =>
    have hstep : ingest_all m (e :: rs) = ingest_all (add_report m e.1 e.2) rs := rfl
    rw [hstep, ih, add_report_result_stats]
    rw [show (e :: rs).foldr (fun e acc => report_outcomes e.1 ++ acc) [] =
      report_outcomes e.1 ++ rs.foldr (fun e acc => report_outcomes e.1 ++ acc) [] from rfl]
    rw [bump_all_append]

/-! ### The property-axis key set is fixed at construction -/

theorem add_property_properties_keys (tcl bn : String) (tc : TestCase)
    (m : ReportMatrix) (p : CaseProperty) :
    PyDict.keys (add_property tcl bn tc m p).properties = PyDict.keys m.properties := by
  unfold add_property
  cases hg : PyDict.get? m.properties p.value with
  | none => simp [hg]
  | some v => simp [hg, PyDict.keys_set_existing hg]

theorem foldl_add_property_properties_keys (tcl bn : String) (tc : TestCase)
    (ps : List CaseProperty) (m : ReportMatrix) :
    PyDict.keys ((ps.foldl (add_property tcl bn tc) m)).properties =
      PyDict.keys m.properties := by
  induction ps generalizing m with
  | nil => rfl
  | cons p ps ih =>
    simp only [List.foldl_cons]
    rw [ih, add_property_properties_keys]

theorem process_case_properties_keys (tcl fn : String) (m : ReportMatrix) (tc : TestCase) :
    PyDict.keys (process_case tcl fn m tc).properties = PyDict.keys m.properties := by
  simp only [process_case]
  rw [foldl_add_property_properties_keys]

theorem foldl_process_case_properties_keys (tcl fn : String) (cs : List TestCase)
    (m : ReportMatrix) :
    PyDict.keys ((cs.foldl (process_case tcl fn) m)).properties =
      PyDict.keys m.properties := by
  induction cs generalizing m with
  | nil => rfl
  | cons tc cs ih =>
    simp only [List.foldl_cons]
    rw [ih, process_case_properties_keys]

theorem process_class_properties_keys (fn : String) (m : ReportMatrix)
    (e : String × TestClass) :
    PyDict.keys (process_class fn m e).properties = PyDict.keys m.properties := by
  simp only [process_class]
  rw [foldl_process_case_properties_keys]

theorem foldl_process_class_properties_keys (fn : String)
    (ps : List (String × TestClass)) (m : ReportMatrix) :
    PyDict.keys ((ps.foldl (process_class fn) m)).properties =
      PyDict.keys m.properties := by
  induction ps generalizing m with
  | nil => rfl
  | cons e ps ih =>
    simp only [List.foldl_cons]
    rw [ih, process_class_properties_keys]

theorem foldl_process_suite_properties_keys (fn : String) (ss : List Suite)
    (m : ReportMatrix) :
    PyDict.keys ((ss.foldl (process_suite fn) m)).properties =
      PyDict.keys m.properties := by
  induction ss generalizing m with
  | nil => rfl
  | cons s ss ih =>
    simp only [List.foldl_cons]
    rw [ih]
    unfold process_suite
    rw [foldl_process_class_properties_keys]

theorem add_report_properties_keys (m : ReportMatrix) (r : Report) (path : String) :
    PyDict.keys (add_report m r path).properties = PyDict.keys m.properties := by
  unfold add_report
  rw [foldl_process_suite_properties_keys]

/-! ### Writes to the three-level case index -/

theorem get3_set3 (d : Dict (Dict (Dict TestCase))) (c cn ax c' cn' ax' : String)
    (tc : TestCase) :
    get3 (set3 d c cn ax tc) c' cn' ax' =
      if c = c' ∧ cn = cn' ∧ ax = ax' then some tc else get3 d c' cn' ax' := by
  unfold get3 set3
  rw [PyDict.get?_set]
  by_cases hc : c = c'
  · subst hc
    simp only [eq_self_iff_true, if_true, Option.getD_some, true_and]
    rw [PyDict.get?_set]
    by_cases hcn : cn = cn'
    · subst hcn
      simp only [eq_self_iff_true, if_true, Option.getD_some, true_and]
      rw [PyDict.get?_set]
    · simp [hcn]
  · simp [hc]

theorem get3_create_class {d : Dict (Dict (Dict TestCase))} {c : String}
    (h : PyDict.get? d c = none) (c' cn ax : String) :
    get3 (PyDict.set d c []) c' cn ax = get3 d c' cn ax := by
  unfold get3
  rw [PyDict.get?_set]
  by_cases hc : c = c'
  · subst hc
    rw [h]
    simp [PyDict.get?]
  · simp [hc]

theorem get3_create_case {d : Dict (Dict (Dict TestCase))} {c cn : String}
    (h : PyDict.get? ((PyDict.get? d c).getD []) cn = none) (c' cn' ax : String) :
    get3 (PyDict.set d c (PyDict.set ((PyDict.get? d c).getD []) cn [])) c' cn' ax =
      get3 d c' cn' ax := by
  unfold get3
  rw [PyDict.get?_set]
  by_cases hc : c = c'
  · subst hc
    simp only [eq_self_iff_true, if_true, Option.getD_some]
    rw [PyDict.get?_set]
    by_cases hcn : cn = cn'
    · subst hcn
      rw [h]
      simp [PyDict.get?]
    · simp [hcn]
  · simp [hc]

/-! ### lastMatch: the last write wins -/

theorem lastMatch_cons {α : Type} (p : α → Bool) (x : α) (xs : List α) :
    lastMatch p (x :: xs) =
      match lastMatch p xs with
      | some y => some y
      | none => if p x then some x else none := by
  simp [lastMatch]

theorem lastMatch_append {α : Type} (p : α → Bool) (l1 l2 : List α) :
    lastMatch p (l1 ++ l2) =
      match lastMatch p l2 with
      | some y => some y
      | none => lastMatch p l1 := by
  induction l1 with
  | nil =>
    cases h : lastMatch p l2 <;> simp [lastMatch, h]
  | cons a l1 ih =>
    rw [List.cons_append, lastMatch_cons, ih, lastMatch_cons]
    cases h2 : lastMatch p l2 with
    | some y => rfl
    | none => rfl

theorem lastMatch_map {α β : Type} (f : α → β) (p : β → Bool) (l : List α) :
    lastMatch p (l.map f) = (lastMatch (fun a => p (f a)) l).map f := by
  induction l with
  | nil => rfl
  | cons a l ih =>
    rw [List.map_cons, lastMatch_cons, lastMatch_cons, ih]
    cases h : lastMatch (fun a => p (f a)) l with
    | some y => rfl
    | none => by_cases hp : p (f a) <;> simp [hp]

/-! ### Field preservation through ingestion -/

theorem add_property_classes (tcl bn : String) (tc : TestCase)
    (m : ReportMatrix) (p : CaseProperty) :
    (add_property tcl bn tc m p).classes = m.classes := by
  unfold add_property
  split <;> rfl

theorem foldl_add_property_classes (tcl bn : String) (tc : TestCase)
    (ps : List CaseProperty) (m : ReportMatrix) :
    ((ps.foldl (add_property tcl bn tc) m)).classes = m.classes := by
  induction ps generalizing m with
  | nil => rfl
  | cons p ps ih =>
    simp only [List.foldl_cons]
    rw [ih, add_property_classes]

theorem process_case_classes (tcl fn : String) (m : ReportMatrix) (tc : TestCase) :
    (process_case tcl fn m tc).classes = m.classes := by
  simp only [process_case]
  rw [foldl_add_property_classes]

theorem foldl_process_case_classes (tcl fn : String) (cs : List TestCase)
    (m : ReportMatrix) :
    ((cs.foldl (process_case tcl fn) m)).classes = m.classes := by
  induction cs generalizing m with
  | nil => rfl
  | cons tc cs ih =>
    simp only [List.foldl_cons]
    rw [ih, process_case_classes]

theorem add_property_reports (tcl bn : String) (tc : TestCase)
    (m : ReportMatrix) (p : CaseProperty) :
    (add_property tcl bn tc m p).reports = m.reports := by
  unfold add_property
  split <;> rfl

theorem foldl_add_property_reports (tcl bn : String) (tc : TestCase)
    (ps : List CaseProperty) (m : ReportMatrix) :
    ((ps.foldl (add_property tcl bn tc) m)).reports = m.reports := by
  induction ps generalizing m with
  | nil => rfl
  | cons p ps ih =>
    simp only [List.foldl_cons]
    rw [ih, add_property_reports]

theorem process_case_reports (tcl fn : String) (m : ReportMatrix) (tc : TestCase) :
    (process_case tcl fn m tc).reports = m.reports := by
  simp only [process_case]
  rw [foldl_add_property_reports]

theorem foldl_process_case_reports (tcl fn : String) (cs : List TestCase)
    (m : ReportMatrix) :
    ((cs.foldl (process_case tcl fn) m)).reports = m.reports := by
  induction cs generalizing m with
  | nil => rfl
  | cons tc cs ih =>
    simp only [List.foldl_cons]
    rw [ih, process_case_reports]

theorem process_class_reports (fn : String) (m : ReportMatrix)
    (e : String × TestClass) :
    (process_class fn m e).reports = m.reports := by
  simp only [process_class]
  rw [foldl_process_case_reports]

theorem foldl_process_class_reports (fn : String) (ps : List (String × TestClass))
    (m : ReportMatrix) :
    ((ps.foldl (process_class fn) m)).reports = m.reports := by
  induction ps generalizing m with
  | nil => rfl
  | cons e ps ih =>
    simp only [List.foldl_cons]
    rw [ih, process_class_reports]

theorem foldl_process_suite_reports (fn : String) (ss : List Suite)
    (m : ReportMatrix) :
    ((ss.foldl (process_suite fn) m)).reports = m.reports := by
  induction ss generalizing m with
  | nil => rfl
  | cons s ss ih =>
    simp only [List.foldl_cons]
    rw [ih]
    unfold process_suite
    rw [foldl_process_class_reports]

theorem add_report_reports (m : ReportMatrix) (r : Report) (path : String) :
    (add_report m r path).reports = PyDict.set m.reports (os_path_basename path) r := by
  unfold add_report
  rw [foldl_process_suite_reports]

/-! ### The classes index under the filename axis -/

theorem process_class_get2 (fn : String) (m : ReportMatrix)
    (e : String × TestClass) (c : String) :
    get2 (process_class fn m e).classes c fn =
      if e.1 = c then some e.2 else get2 m.classes c fn := by
  simp only [process_class]
  rw [foldl_process_case_classes]
  unfold get2
  rw [PyDict.get?_set]
  by_cases hc : e.1 = c
  · subst hc
    simp only [eq_self_iff_true, if_true, Option.getD_some]
    rw [PyDict.get?_set]
    simp
  · simp only [hc, if_false, if_neg hc]
    split
    · rw [PyDict.get?_set]
      simp [hc]
    · rfl

theorem foldl_process_class_get2 (fn : String) (ps : List (String × TestClass))
    (m : ReportMatrix) (c : String) :
    get2 ((ps.foldl (process_class fn) m)).classes c fn =
      match lastMatch (fun e => e.1 == c) ps with
      | some e => some e.2
      | none => get2 m.classes c fn := by
  induction ps generalizing m with
  | nil => rfl
  | cons e ps ih =>
    simp only [List.foldl_cons]
    rw [ih]
    rw [lastMatch_cons]
    cases h : lastMatch (fun e => e.1 == c) ps with
    | some y => rfl
    | none =>
      rw [process_class_get2]
      by_cases hc : e.1 = c
      · simp [hc]
      · have : ((e.1 == c) : Bool) = false := by simp [hc]
        simp [hc, this]

theorem foldl_process_suite_get2 (fn : String) (ss : List Suite)
    (m : ReportMatrix) (c : String) :
    get2 ((ss.foldl (process_suite fn) m)).classes c fn =
      match lastMatch (fun e => e.1 == c) (ss.foldr (fun s acc => s.classes ++ acc) []) with
      | some e => some e.2
      | none => get2 m.classes c fn := by
  induction ss generalizing m with
  | nil => rfl
  | cons s ss ih =>
    simp only [List.foldl_cons]
    rw [ih]
    rw [show (s :: ss).foldr (fun s acc => s.classes ++ acc) [] =
      s.classes ++ ss.foldr (fun s acc => s.classes ++ acc) [] from rfl]
    rw [lastMatch_append]
    cases h : lastMatch (fun e => e.1 == c) (ss.foldr (fun s acc => s.classes ++ acc) []) with
    | some y => rfl
    | none =>
      unfold process_suite
      rw [foldl_process_class_get2]

theorem add_report_get2_classes (m : ReportMatrix) (r : Report) (path : String)
    (c : String) :
    get2 (add_report m r path).classes c (os_path_basename path) =
      match lastMatch (fun e => e.1 == c) (report_class_pairs r) with
      | some e => some e.2
      | none => get2 m.classes c (os_path_basename path) := by
  unfold add_report
  rw [foldl_process_suite_get2]
  rfl

/-! ### The cases index under the filename axis -/

theorem add_property_get3_off (tcl bn : String) (tc : TestCase) (m : ReportMatrix)
    (p : CaseProperty) (c cn ax : String) (h : ¬(tcl = c ∧ bn = cn)) :
    get3 (add_property tcl bn tc m p).cases c cn ax = get3 m.cases c cn ax := by
  unfold add_property
  cases hg : PyDict.get? m.properties p.value with
  | none => simp [hg]
  | some v =>
    simp only [hg, Option.isNone_some, Bool.false_eq_true, if_false]
    show get3 (set3 m.cases tcl bn p.value tc) c cn ax = get3 m.cases c cn ax
    rw [get3_set3]
    have hno : ¬(tcl = c ∧ bn = cn ∧ p.value = ax) := fun hx => h ⟨hx.1, hx.2.1⟩
    simp [hno]

theorem add_property_get3_on (tcl bn : String) (tc : TestCase) (m : ReportMatrix)
    (p : CaseProperty) (ax : String) (h : get3 m.cases tcl bn ax = some tc) :
    get3 (add_property tcl bn tc m p).cases tcl bn ax = some tc := by
  unfold add_property
  cases hg : PyDict.get? m.properties p.value with
  | none => simp [hg, h]
  | some v =>
    simp only [hg, Option.isNone_some, Bool.false_eq_true, if_false]
    show get3 (set3 m.cases tcl bn p.value tc) tcl bn ax = some tc
    rw [get3_set3]
    by_cases hpv : p.value = ax
    · simp [hpv]
    · simp [hpv, h]

theorem foldl_add_property_get3_off (tcl bn : String) (tc : TestCase)
    (ps : List CaseProperty) (m : ReportMatrix) (c cn ax : String)
    (h : ¬(tcl = c ∧ bn = cn)) :
    get3 ((ps.foldl (add_property tcl bn tc) m)).cases c cn ax =
      get3 m.cases c cn ax := by
  induction ps generalizing m with
  | nil => rfl
  | cons p ps ih =>
    simp only [List.foldl_cons]
    rw [ih, add_property_get3_off tcl bn tc m p c cn ax h]

theorem foldl_add_property_get3_on (tcl bn : String) (tc : TestCase)
    (ps : List CaseProperty) (m : ReportMatrix) (ax : String)
    (h : get3 m.cases tcl bn ax = some tc) :
    get3 ((ps.foldl (add_property tcl bn tc) m)).cases tcl bn ax = some tc := by
  induction ps generalizing m with
  | nil => exact h
  | cons p ps ih =>
    simp only [List.foldl_cons]
    exact ih _ (add_property_get3_on tcl bn tc m p ax h)

theorem process_case_get3 (tcl fn : String) (m : ReportMatrix) (tc : TestCase)
    (c cn : String) :
    get3 (process_case tcl fn m tc).cases c cn fn =
      if tcl = c ∧ pyStrip tc.basename = cn then some tc
      else get3 m.cases c cn fn := by
  simp only [process_case]
  by_cases hcc : tcl = c ∧ pyStrip tc.basename = cn
  · obtain ⟨h1, h2⟩ := hcc
    subst h1; subst h2
    rw [if_pos (⟨rfl, rfl⟩ : tcl = tcl ∧ pyStrip tc.basename = pyStrip tc.basename)]
    apply foldl_add_property_get3_on
    show get3 (set3 _ tcl (pyStrip tc.basename) fn tc) tcl (pyStrip tc.basename) fn = some tc
    rw [get3_set3]
    simp
  · rw [if_neg hcc]
    rw [foldl_add_property_get3_off tcl (pyStrip tc.basename) tc tc.properties _ c cn fn hcc]
    show get3 (set3 _ tcl (pyStrip tc.basename) fn tc) c cn fn = get3 m.cases c cn fn
    rw [get3_set3]
    have hno : ¬(tcl = c ∧ pyStrip tc.basename = cn ∧ fn = fn) := fun hx => hcc ⟨hx.1, hx.2.1⟩
    rw [if_neg hno]
    split
    · rename_i hmiss
      have hnone : PyDict.get? m.cases tcl = none :=
        PyDict.get?_eq_none_of_hasKey_false (by simpa using hmiss)
      split
      · rename_i hmiss2
        rw [get3_create_case (PyDict.get?_eq_none_of_hasKey_false (by simpa using hmiss2)) c cn fn]
        rw [get3_create_class hnone c cn fn]
      · rw [get3_create_class hnone c cn fn]
    · split
      · rename_i hmiss2
        rw [get3_create_case (PyDict.get?_eq_none_of_hasKey_false (by simpa using hmiss2)) c cn fn]
      · rfl

theorem foldl_process_case_get3 (tcl fn : String) (cs : List TestCase)
    (m : ReportMatrix) (c cn : String) :
    get3 ((cs.foldl (process_case tcl fn) m)).cases c cn fn =
      match lastMatch (fun t => decide (tcl = c) && decide (pyStrip t.basename = cn)) cs with
      | some t => some t
      | none => get3 m.cases c cn fn := by
  induction cs generalizing m with
  | nil => rfl
  | cons t cs ih =>
    simp only [List.foldl_cons]
    rw [ih, lastMatch_cons]
    cases h : lastMatch (fun t => decide (tcl = c) && decide (pyStrip t.basename = cn)) cs with
    | some y => rfl
    | none =>
      rw [process_case_get3]
      by_cases hcc : tcl = c ∧ pyStrip t.basename = cn
      · rw [if_pos hcc]
        have : (decide (tcl = c) && decide (pyStrip t.basename = cn)) = true := by
          simp [hcc.1, hcc.2]
        simp [this]
      · rw [if_neg hcc]
        have : (decide (tcl = c) && decide (pyStrip t.basename = cn)) = false := by
          by_cases h1 : tcl = c
          · have h2 : ¬ pyStrip t.basename = cn := fun h2 => hcc ⟨h1, h2⟩
            simp [h1, h2]
          · simp [h1]
        simp [this]

theorem process_class_get3 (fn : String) (m : ReportMatrix) (e : String × TestClass)
    (c cn : String) :
    get3 (process_class fn m e).cases c cn fn =
      match lastMatch (fun t => decide (e.1 = c) && decide (pyStrip t.basename = cn))
          e.2.cases with
      | some t => some t
      | none => get3 m.cases c cn fn := by
  simp only [process_class]
  rw [foldl_process_case_get3]

theorem foldl_process_class_get3 (fn : String) (ps : List (String × TestClass))
    (m : ReportMatrix) (c cn : String) :
    get3 ((ps.foldl (process_class fn) m)).cases c cn fn =
      match lastMatch (fun e => decide (e.1 = c) && decide (pyStrip e.2.basename = cn))
          (pairs_triples ps) with
      | some e => some e.2
      | none => get3 m.cases c cn fn := by
  induction ps generalizing m with
  | nil => rfl
  | cons e ps ih =>
    simp only [List.foldl_cons]
    rw [ih]
    rw [show pairs_triples (e :: ps) =
      e.2.cases.map (fun t => (e.1, t)) ++ pairs_triples ps from rfl]
    rw [lastMatch_append]
    cases h : lastMatch (fun e => decide (e.1 = c) && decide (pyStrip e.2.basename = cn))
        (pairs_triples ps) with
    | some y => rfl
    | none =>
      rw [process_class_get3, lastMatch_map]
      cases h2 : lastMatch (fun t => decide (e.1 = c) && decide (pyStrip t.basename = cn))
          e.2.cases with
      | some y => rfl
      | none => rfl

theorem foldl_process_suite_get3 (fn : String) (ss : List Suite)
    (m : ReportMatrix) (c cn : String) :
    get3 ((ss.foldl (process_suite fn) m)).cases c cn fn =
      match lastMatch (fun e => decide (e.1 = c) && decide (pyStrip e.2.basename = cn))
          (suites_triples ss) with
      | some e => some e.2
      | none => get3 m.cases c cn fn := by
  induction ss generalizing m with
  | nil => rfl
  | cons s ss ih =>
    simp only [List.foldl_cons]
    rw [ih]
    rw [show suites_triples (s :: ss) =
      pairs_triples s.classes ++ suites_triples ss from rfl]
    rw [lastMatch_append]
    cases h : lastMatch (fun e => decide (e.1 = c) && decide (pyStrip e.2.basename = cn))
        (suites_triples ss) with
    | some y => rfl
    | none =>
      unfold process_suite
      rw [foldl_process_class_get3]

theorem add_report_get3_cases (m : ReportMatrix) (r : Report) (path : String)
    (c cn : String) :
    get3 (add_report m r path).cases c cn (os_path_basename path) =
      match lastMatch (fun e => decide (e.1 = c) && decide (pyStrip e.2.basename = cn))
          (report_triples r) with
      | some e => some e.2
      | none => get3 m.cases c cn (os_path_basename path) := by
  unfold add_report
  rw [foldl_process_suite_get3]
  rfl

/-! ### Combinator helpers -/

theorem combined_result_with_congr (so : String → String) (rs1 rs2 : List String)
    (h1 : PASSED ∈ rs1 ↔ PASSED ∈ rs2) (h2 : FAILED ∈ rs1 ↔ FAILED ∈ rs2)
    (h3 : SKIPPED ∈ rs1 ↔ SKIPPED ∈ rs2) :
    combined_result_with so rs1 = combined_result_with so rs2 := by
  unfold combined_result_with
  have e1 : (PASSED ∈ rs1) = (PASSED ∈ rs2) := propext h1
  have e2 : (FAILED ∈ rs1) = (FAILED ∈ rs2) := propext h2
  have e3 : (SKIPPED ∈ rs1) = (SKIPPED ∈ rs2) := propext h3
  simp only [e1, e2, e3]

theorem mem_html_case_results_iff (m : ReportMatrix) (classname casename x : String)
    (hx : x ≠ ABSENT) :
    x ∈ html_case_results m classname casename ↔
      x ∈ data_results m classname casename := by
  unfold html_case_results data_results
  induction m.property_order with
  | nil => simp
  | cons ax l ih =>
    cases hg : get3 m.cases classname casename ax with
    | none => simp [hg, hx, ih]
    | some tc => simp [hg, ih]

theorem statsGet_bump (d : Dict Nat) (k o : String) :
    statsGet (stats_bump d k) o = statsGet d o + if k = o then 1 else 0 := by
  unfold statsGet
  rw [get?_stats_bump]
  by_cases h : k = o <;> simp [h]

theorem length_foldr_report_outcomes (rs : List (Report × String)) :
    (rs.foldr (fun e acc => report_outcomes e.1 ++ acc) []).length =
      (rs.map (fun e => (report_outcomes e.1).length)).sum := by
  induction rs with
  | nil => rfl
  | cons e rs ih => simp [List.length_append, ih]

theorem count_foldr_report_outcomes (rs : List (Report × String)) (o : String) :
    ((rs.foldr (fun e acc => report_outcomes e.1 ++ acc) []).count o) =
      (rs.map (fun e => (report_outcomes e.1).count o)).sum := by
  induction rs with
  | nil => rfl
  | cons e rs ih => simp [List.count_append, ih]

/-! ### The claims -/

/-- C1: `combined_result` applies the fixed precedence on any collection
of elementary outcomes: Passed together with Failed gives PartialFail;
else Passed with Skipped gives PartialPass; else Passed alone gives
Passed; else Failed gives TotalFail; else Skipped gives Untested; a
collection with none of the three (including the empty one) gives the
empty classification (blank short code, empty label), never failing. -/
theorem c1_combined_result_precedence (results : List String) :
    (PASSED ∈ results → FAILED ∈ results →
      combined_result results = (short_outcome PARTIAL_FAIL, pyTitle PARTIAL_FAIL)) ∧
    (PASSED ∈ results → SKIPPED ∈ results → FAILED ∉ results →
      combined_result results = (short_outcome PARTIAL_PASS, pyTitle PARTIAL_PASS)) ∧
    (PASSED ∈ results → FAILED ∉ results → SKIPPED ∉ results →
      combined_result results = (short_outcome PASSED, pyTitle PASSED)) ∧
    (PASSED ∉ results → FAILED ∈ results →
      combined_result results = (short_outcome TOTAL_FAIL, pyTitle TOTAL_FAIL)) ∧
    (PASSED ∉ results → FAILED ∉ results → SKIPPED ∈ results →
      combined_result results = (short_outcome UNTESTED, pyTitle UNTESTED)) ∧
    (PASSED ∉ results → FAILED ∉ results → SKIPPED ∉ results →
      combined_result results = (" ", "")) := by
  unfold combined_result combined_result_with
  refine ⟨?_, ?_, ?_, ?_, ?_, ?_⟩ <;> intros <;> simp_all

/-- Witness for C1 at the six concrete inputs of spec §8. -/
theorem c1_witness :
    combined_result [PASSED, FAILED] = (short_outcome PARTIAL_FAIL, pyTitle PARTIAL_FAIL) ∧
    combined_result [PASSED, SKIPPED] = (short_outcome PARTIAL_PASS, pyTitle PARTIAL_PASS) ∧
    combined_result [PASSED] = (short_outcome PASSED, pyTitle PASSED) ∧
    combined_result [FAILED] = (short_outcome TOTAL_FAIL, pyTitle TOTAL_FAIL) ∧
    combined_result [SKIPPED] = (short_outcome UNTESTED, pyTitle UNTESTED) ∧
    combined_result [] = (" ", "") :=
  ⟨(c1_combined_result_precedence [PASSED, FAILED]).1 (by decide) (by decide),
   (c1_combined_result_precedence [PASSED, SKIPPED]).2.1 (by decide) (by decide) (by decide),
   (c1_combined_result_precedence [PASSED]).2.2.1 (by decide) (by decide) (by decide),
   (c1_combined_result_precedence [FAILED]).2.2.2.1 (by decide) (by decide),
   (c1_combined_result_precedence [SKIPPED]).2.2.2.2.1 (by decide) (by decide) (by decide),
   (c1_combined_result_precedence []).2.2.2.2.2 (by decide) (by decide) (by decide)⟩

/-- C2: the combinator depends only on which of Passed/Failed/Skipped
are members of its input (so it is invariant under reordering,
duplication and Absent padding), and the HTML renderer's combined column
(computed from `case_results`, which holds `ABSENT` for every blank
cell) equals the combination over only the axes where data exists. -/
theorem c2_combined_membership_invariance :
    (∀ rs1 rs2 : List String,
      (PASSED ∈ rs1 ↔ PASSED ∈ rs2) → (FAILED ∈ rs1 ↔ FAILED ∈ rs2) →
      (SKIPPED ∈ rs1 ↔ SKIPPED ∈ rs2) →
      combined_result rs1 = combined_result rs2) ∧
    (∀ (m : ReportMatrix) (classname casename : String),
      html_combined_result (html_case_results m classname casename) =
        html_combined_result (data_results m classname casename)) := by
  constructor
  · intro rs1 rs2 h1 h2 h3
    exact combined_result_with_congr short_outcome rs1 rs2 h1 h2 h3
  · intro m classname casename
    apply combined_result_with_congr
    · exact mem_html_case_results_iff m classname casename PASSED (by decide)
    · exact mem_html_case_results_iff m classname casename FAILED (by decide)
    · exact mem_html_case_results_iff m classname casename SKIPPED (by decide)

/-- Witness for C2: duplication plus an Absent entry does not change the
combination, and on a concrete matrix the rendered combined column equals
the data-only combination. -/
theorem c2_witness :
    combined_result [PASSED, ABSENT, PASSED] = combined_result [PASSED] ∧
    html_combined_result (html_case_results fixTwoReports "cls" "case1") =
      html_combined_result (data_results fixTwoReports "cls" "case1") :=
  ⟨c2_combined_membership_invariance.1 [PASSED, ABSENT, PASSED] [PASSED]
      (by decide) (by decide) (by decide),
   c2_combined_membership_invariance.2 fixTwoReports "cls" "case1"⟩

/-- C3 (code bug): after ingesting the same class/case twice under two
distinct basenames, the per-class case-name registry holds the trimmed
base name twice — line 85 tests `basename not in self.casenames`, i.e.
membership in the dict keyed by class names, instead of membership in
`self.casenames[testclass]`, so the name is re-appended on every
occurrence. -/
theorem c3_casenames_duplicate :
    PyDict.get? fixTwice.casenames "cls" = some ["case1", "case1"] := by decide

/-- C4: one ingestion bumps the outcome counter exactly once per case
occurrence, keyed by the case's outcome, independent of property axes;
hence the counter keyed at each outcome grows by that outcome's
occurrence count, the counter total grows by the number of case
occurrences, and over a whole run from a fresh matrix the total equals
the number of case occurrences across all ingested reports. -/
theorem c4_stats_count_once_per_case (m : ReportMatrix) (r : Report) (path : String) :
    (∀ o : String, statsGet (add_report m r path).result_stats o =
      statsGet m.result_stats o + count_outcome r o) ∧
    (stats_total (add_report m r path).result_stats =
      stats_total m.result_stats + (report_outcomes r).length) ∧
    (∀ (pp : Option String) (n : Nat) (rs : List (Report × String)),
      stats_total (ingest_all (ReportMatrix.init pp n) rs).result_stats =
        (rs.map (fun e => (report_outcomes e.1).length)).sum) := by
  refine ⟨?_, ?_, ?_⟩
  · intro o
    rw [add_report_result_stats, statsGet_bump_all]
    rfl
  · rw [add_report_result_stats, stats_total_bump_all]
  · intro pp n rs
    rw [ingest_all_result_stats, stats_total_bump_all, length_foldr_report_outcomes]
    have hinit : stats_total (ReportMatrix.init pp n).result_stats = 0 := by
      cases pp <;> rfl
    rw [hinit, Nat.zero_add]

theorem foldl_add_property_filter (tcl bn : String) (tc : TestCase)
    (ps : List CaseProperty) (m : ReportMatrix) :
    ps.foldl (add_property tcl bn tc) m =
      (ps.filter (fun p => PyDict.hasKey m.properties p.value)).foldl
        (add_property tcl bn tc) m := by
  induction ps generalizing m with
  | nil => rfl
  | cons p ps ih =>
    by_cases hk : PyDict.hasKey m.properties p.value
    · have hfk : (p :: ps).filter (fun p => PyDict.hasKey m.properties p.value) =
        p :: ps.filter (fun p => PyDict.hasKey m.properties p.value) := by
        simp [List.filter_cons, hk]
      rw [hfk]
      simp only [List.foldl_cons]
      rw [ih (add_property tcl bn tc m p)]
      have hpred : (fun p' : CaseProperty =>
          PyDict.hasKey (add_property tcl bn tc m p).properties p'.value) =
          (fun p' : CaseProperty => PyDict.hasKey m.properties p'.value) := by
        funext p'
        exact PyDict.hasKey_eq_of_keys_eq (add_property_properties_keys tcl bn tc m p) p'.value
      rw [hpred]
    · have hadd : add_property tcl bn tc m p = m := by
        unfold add_property
        have hnone : PyDict.get? m.properties p.value = none :=
          PyDict.get?_eq_none_of_hasKey_false (by simpa using hk)
        simp [hnone]
      have hfk : (p :: ps).filter (fun p => PyDict.hasKey m.properties p.value) =
        ps.filter (fun p => PyDict.hasKey m.properties p.value) := by
        simp [List.filter_cons, hk]
      rw [hfk]
      simp only [List.foldl_cons]
      rw [hadd, ih m]

/-- C5: a case property whose value is not a declared axis is skipped
without failing: that single `add_property` step leaves the matrix
unchanged (only a warning is printed), the whole property loop behaves as
if only the recognized properties were present, and the rest of the case
is processed normally — the filename-axis entry is stored and the
outcome counter is bumped regardless of the property list. -/
theorem c5_unknown_property_skipped (tcl fn : String) (tc : TestCase) (m : ReportMatrix) :
    (∀ p : CaseProperty, PyDict.hasKey m.properties p.value = false →
      add_property tcl (pyStrip tc.basename) tc m p = m) ∧
    (∀ ps : List CaseProperty,
      ps.foldl (add_property tcl (pyStrip tc.basename) tc) m =
        (ps.filter (fun p => PyDict.hasKey m.properties p.value)).foldl
          (add_property tcl (pyStrip tc.basename) tc) m) ∧
    (get3 (process_case tcl fn m tc).cases tcl (pyStrip tc.basename) fn = some tc) ∧
    (∀ o, statsGet (process_case tcl fn m tc).result_stats o =
      statsGet m.result_stats o + if tc.outcome = o then 1 else 0) := by
  refine ⟨?_, ?_, ?_, ?_⟩
  · intro p hk
    unfold add_property
    have hnone : PyDict.get? m.properties p.value = none :=
      PyDict.get?_eq_none_of_hasKey_false hk
    simp [hnone]
  · intro ps
    exact foldl_add_property_filter tcl (pyStrip tc.basename) tc ps m
  · rw [process_case_get3]
    simp
  · intro o
    rw [process_case_result_stats, statsGet_bump]

/-- Witness for C5: on the concrete REQ matrix, an unrecognized property
value leaves the state untouched. -/
theorem c5_witness :
    add_property "cls" (pyStrip fixCaseFail.basename) fixCaseFail fixReq
      (CaseProperty.mk "UNKNOWN") = fixReq :=
  (c5_unknown_property_skipped "cls" "b.xml" fixCaseFail fixReq).1
    (CaseProperty.mk "UNKNOWN") (by decide)

/-- C6: construction with a truthy prefix and count pre-registers exactly
the axes `prefix+1 … prefix+count` (and none when the prefix or the count
is omitted / falsy), and no `add_report` call ever adds a key to the
properties mapping. -/
theorem c6_property_axes_fixed :
    (∀ (pfx : String) (n : Nat), pfx ≠ "" →
      PyDict.keys (ReportMatrix.init (some pfx) n).properties =
        (List.range' 1 n).map (fun i => pfx ++ toString i)) ∧
    (∀ n, (ReportMatrix.init none n).properties = []) ∧
    (∀ pp, (ReportMatrix.init pp 0).properties = []) ∧
    (∀ (m : ReportMatrix) (r : Report) (path : String),
      PyDict.keys (add_report m r path).properties = PyDict.keys m.properties) := by
  refine ⟨?_, ?_, ?_, ?_⟩
  · intro pfx n hpfx
    by_cases hn : n = 0
    · subst hn
      simp [ReportMatrix.init, PyDict.keys]
    · simp only [ReportMatrix.init]
      rw [if_pos ⟨hpfx, hn⟩]
      simp [PyDict.keys]
  · intro n; rfl
  · intro pp
    cases pp with
    | none => rfl
    | some pfx => simp [ReportMatrix.init]
  · intro m r path
    exact add_report_properties_keys m r path

/-- Witness for C6: constructing with prefix REQ and count 2 yields
exactly the axes REQ1, REQ2. -/
theorem c6_witness :
    PyDict.keys (ReportMatrix.init (some "REQ") 2).properties = ["REQ1", "REQ2"] := by
  have h := c6_property_axes_fixed.1 "REQ" 2 (by decide)
  rw [h]
  decide

/-- C7: for reports with pairwise distinct basenames, the global outcome
counters after ingesting them do not depend on the ingestion order: any
permutation of the ingestion list yields a counter dict with identical
lookups at every key. -/
theorem c7_ingest_order_invariant (m : ReportMatrix) (rs1 rs2 : List (Report × String))
    (hperm : rs1.Perm rs2)
    (_hnodup : (rs1.map (fun e => os_path_basename e.2)).Nodup) :
    ∀ o, PyDict.get? (ingest_all m rs1).result_stats o =
      PyDict.get? (ingest_all m rs2).result_stats o := by
  intro o
  rw [ingest_all_result_stats, ingest_all_result_stats, get?_bump_all, get?_bump_all]
  have hcount : (rs1.foldr (fun e acc => report_outcomes e.1 ++ acc) []).count o =
      (rs2.foldr (fun e acc => report_outcomes e.1 ++ acc) []).count o := by
    rw [count_foldr_report_outcomes, count_foldr_report_outcomes]
    exact (hperm.map (fun e => (report_outcomes e.1).count o)).sum_eq
  rw [hcount]

/-- Witness for C7: swapping two concrete reports with distinct basenames
leaves the Passed counter lookup unchanged. -/
theorem c7_witness :
    PyDict.get? (ingest_all fixEmpty [(fixRepA, "a.xml"), (fixRepB, "b.xml")]).result_stats
        PASSED =
      PyDict.get? (ingest_all fixEmpty [(fixRepB, "b.xml"), (fixRepA, "a.xml")]).result_stats
        PASSED :=
  c7_ingest_order_invariant fixEmpty [(fixRepA, "a.xml"), (fixRepB, "b.xml")]
    [(fixRepB, "b.xml"), (fixRepA, "a.xml")] (by decide) (by decide) PASSED

/-- C8: ingesting the same report twice under the same basename leaves,
under that filename axis key, exactly the state of a single ingestion —
the registered report, every class's per-filename subtree entry and every
case's per-filename result are unchanged by the second ingestion — while
the global outcome counters are double-counted. -/
theorem c8_double_ingest_overwrites (m : ReportMatrix) (r : Report) (path : String) :
    (PyDict.get? (add_report (add_report m r path) r path).reports (os_path_basename path) =
      PyDict.get? (add_report m r path).reports (os_path_basename path)) ∧
    (∀ c, get2 (add_report (add_report m r path) r path).classes c (os_path_basename path) =
      get2 (add_report m r path).classes c (os_path_basename path)) ∧
    (∀ c cn, get3 (add_report (add_report m r path) r path).cases c cn (os_path_basename path) =
      get3 (add_report m r path).cases c cn (os_path_basename path)) ∧
    (∀ o, statsGet (add_report (add_report m r path) r path).result_stats o =
      statsGet m.result_stats o + 2 * count_outcome r o) := by
  refine ⟨?_, ?_, ?_, ?_⟩
  · rw [add_report_reports, add_report_reports, PyDict.get?_set, PyDict.get?_set]
    simp
  · intro c
    rw [add_report_get2_classes]
    cases h : lastMatch (fun e => e.1 == c) (report_class_pairs r) with
    | some e =>
      simp only [h]
      rw [add_report_get2_classes, h]
    | none => simp only [h]
  · intro c cn
    rw [add_report_get3_cases]
    cases h : lastMatch (fun e => decide (e.1 = c) && decide (pyStrip e.2.basename = cn))
        (report_triples r) with
    | some e =>
      simp only [h]
      rw [add_report_get3_cases, h]
    | none => simp only [h]
  · intro o
    rw [add_report_result_stats, add_report_result_stats, statsGet_bump_all, statsGet_bump_all]
    unfold count_outcome
    omega

/-- C9: `property_order` sorts the declared axis names with the natural
sort that compares embedded digit runs numerically: `{REQ1, REQ2, REQ10}`
comes out as `[REQ1, REQ2, REQ10]` (not lexicographically), and a matrix
constructed with prefix REQ and count 10 lists REQ2 before REQ10. -/
theorem c9_property_order_natural :
    ReportMatrix.property_order fixReq = ["REQ1", "REQ2", "REQ10"] ∧
    ReportMatrix.property_order (ReportMatrix.init (some "REQ") 10) =
      ["REQ1", "REQ2", "REQ3", "REQ4", "REQ5", "REQ6", "REQ7", "REQ8", "REQ9", "REQ10"] := by
  constructor <;> decide

/-- C10: every cell of the HTML matrix links to the page of the first
report in the reports mapping: whenever at least one report was ingested,
`render_cell` is defined for every cell (no IndexError), and for a cell
with data the produced hyperlink targets `firstReport + ".html"` — with
the first reports key interpolated, whatever report or property axis the
cell's case result came from. -/
theorem c10_cell_links_first_report (m : ReportMatrix) (classname casename axis : String)
    (k : String) (ks : List String) (hkeys : PyDict.keys m.reports = k :: ks) :
    ((render_cell m classname casename axis).isSome = true) ∧
    (∀ tc : TestCase, get3 m.cases classname casename axis = some tc →
      tc.outcome ≠ ABSENT →
      render_cell m classname casename axis =
        some ("<td class='testcase-cell " ++ tc.outcome ++
          "'>" ++ ("<a class='tooltip-parent testcase-link' href='" ++ k ++ ".html#" ++
          tc.anchor ++ "'>" ++ html_short_outcome tc.outcome ++
          ("<div class='tooltip'>(" ++ pyTitle tc.outcome ++ ") " ++ axis ++ "</div></a>")) ++
          "</td>")) := by
  constructor
  · unfold render_cell
    rw [hkeys]
    cases hg : get3 m.cases classname casename axis <;> simp [hg]
  · intro tc hg hne
    unfold render_cell
    rw [hkeys, hg]
    simp only [hne, if_false]
    simp [String.append_assoc]

/-- Witness for C10 on a concrete two-report matrix whose only case
result came from the second report: the cell still links to the first
report's page. -/
theorem c10_witness :
    ((render_cell fixTwoReports "cls" "case1" "REQ1").isSome = true) ∧
    render_cell fixTwoReports "cls" "case1" "REQ1" =
      some ("<td class='testcase-cell " ++ fixCaseFail.outcome ++
        "'>" ++ ("<a class='tooltip-parent testcase-link' href='" ++ "a.xml" ++ ".html#" ++
        fixCaseFail.anchor ++ "'>" ++ html_short_outcome fixCaseFail.outcome ++
        ("<div class='tooltip'>(" ++ pyTitle fixCaseFail.outcome ++ ") " ++ "REQ1" ++ "</div></a>")) ++
        "</td>") :=
  ⟨(c10_cell_links_first_report fixTwoReports "cls" "case1" "REQ1" "a.xml" ["b.xml"] rfl).1,
   (c10_cell_links_first_report fixTwoReports "cls" "case1" "REQ1" "a.xml" ["b.xml"] rfl).2
     fixCaseFail (by decide) (by decide)⟩

end JUnitMatrix
